import Mathlib

/-!
Shallow embedding of `jira_agile_metrics/querymanager.py`.

Python values flowing through `resolve_field_value` are modelled by the
inductive `PyVal`: the constant `None`, the primitive scalars
(bool / int / float / str / bytes), lists (covering Python lists and
tuples), and generic objects.  A generic object carries its optional
`value` attribute (the "wrapped" representation unwrapped by
`getattr(field_value, 'value', field_value)`), its optional `name`
attribute (used by `getattr(v, 'name', v)`), and the result of `str()`
applied to it (`none` models `str` raising `TypeError`).  The textual
renderings produced by `str()` for floats, bytes and lists are carried
opaquely / abbreviated: no embedded operation inspects them.

Timestamps (`datetime` objects produced by `dateutil.parser.parse`) are
modelled by `PyDateTime`: an absolute instant together with a timezone
offset; `astimezone(tzutc())` keeps the instant and sets the offset to
zero, and `isoformat` renders both components injectively.  Parsing of
the timestamp strings is the external `dateutil` collaborator and is
taken as already done, so `Issue.created` and `History.created` hold
parsed timestamps.

Python exceptions that the source can raise or catch are the constructors
of `PyErr`; fallible functions return `Except PyErr _`, and the
`iter_changes` generator is modelled as the list of all snapshots it
yields, with the first uncaught exception (if any) as the `error` case.
-/

inductive PyVal where
  | none
  | bool (b : Bool)
  | int (n : Int)
  | float (lit : String)
  | str (s : String)
  | bytes (lit : String)
  | list (vs : List PyVal)
  | obj (value : Option PyVal) (nameAttr : Option PyVal) (strRepr : Option String)

mutual

/-- Python `==` on the modelled values: structural equality. -/
def pyBeq : PyVal → PyVal → Bool
  | PyVal.none, PyVal.none => true
  | PyVal.bool a, PyVal.bool b => a == b
  | PyVal.int a, PyVal.int b => a == b
  | PyVal.float a, PyVal.float b => a == b
  | PyVal.str a, PyVal.str b => a == b
  | PyVal.bytes a, PyVal.bytes b => a == b
  | PyVal.list as, PyVal.list bs => pyListBeq as bs
  | PyVal.obj v1 n1 s1, PyVal.obj v2 n2 s2 =>
      pyOptBeq v1 v2 && pyOptBeq n1 n2 && s1 == s2
  | _, _ => false

def pyListBeq : List PyVal → List PyVal → Bool
  | [], [] => true
  | a :: as, b :: bs => pyBeq a b && pyListBeq as bs
  | _, _ => false

def pyOptBeq : Option PyVal → Option PyVal → Bool
  | Option.none, Option.none => true
  | some a, some b => pyBeq a b
  | _, _ => false

end

instance : BEq PyVal := ⟨pyBeq⟩

/-- A timezone-aware timestamp: the absolute instant (e.g. in seconds
since an epoch) plus the attached timezone's offset.  The local wall
time displayed by `isoformat` is `instant + tzOffset`. -/
structure PyDateTime where
  instant : Int
  tzOffset : Int

/-- `date.astimezone(dateutil.tz.tzutc())`: same instant, UTC offset. -/
def astimezoneUtc (d : PyDateTime) : PyDateTime :=
  { instant := d.instant, tzOffset := 0 }

/-- `datetime.isoformat()`: renders the wall time and the offset.  The
exact shape of the string is irrelevant; what matters is that it is an
injective function of the pair (wall time, offset). -/
def isoformat (d : PyDateTime) : String :=
  toString (d.instant + d.tzOffset) ++ "!" ++ toString d.tzOffset

/-- `IssueSnapshot`: a snapshot of one field of an issue at one point of
its change history (source class `IssueSnapshot`). -/
structure IssueSnapshot where
  change : String
  key : String
  date : PyDateTime
  from_string : PyVal
  to_string : PyVal

/-- `IssueSnapshot.__init__`: stores the fields, normalizing the date via
`date.astimezone(dateutil.tz.tzutc())`. -/
def mkIssueSnapshot (change key : String) (date : PyDateTime)
    (from_string to_string : PyVal) : IssueSnapshot :=
  { change := change, key := key, date := astimezoneUtc date,
    from_string := from_string, to_string := to_string }

/-- `IssueSnapshot.__eq__`: all five fields compare equal, the dates by
their `isoformat()` strings. -/
def snapshotEq (s other : IssueSnapshot) : Bool :=
  s.change == other.change &&
  s.key == other.key &&
  isoformat s.date == isoformat other.date &&
  pyBeq s.from_string other.from_string &&
  pyBeq s.to_string other.to_string

/-- One delta item of a changelog history entry: `{field, fromString,
toString}`.  JIRA populates the two strings with a string or null, so
they are PyVal-valued. -/
structure ChangeItem where
  field : String
  fromString : PyVal
  toString : PyVal

/-- One changelog history entry: its (parsed) `created` timestamp and its
ordered delta items. -/
structure History where
  created : PyDateTime
  items : List ChangeItem

/-- An issue as consumed by `QueryManager`: `key`, the parsed
`fields.created` timestamp, the attributes of the `fields` object as an
ordered association list (a field id absent from the list models an
attribute that `getattr` does not find), and `changelog.histories`. -/
structure Issue where
  key : String
  created : PyDateTime
  fields : List (String × PyVal)
  changelog : List History

/-- The Python exceptions the source raises or catches: `ConfigError`
(raised by `field_name_to_id`), `AttributeError` (raised by two-argument
`getattr` on a missing attribute), `KeyError` (raised by `dict[missing]`). -/
inductive PyErr where
  | configError (msg : String)
  | attributeError (msg : String)
  | keyError (msg : String)
deriving DecidableEq

/-- One entry of the JIRA field directory (`self.jira.fields()`). -/
structure JField where
  id : String
  name : String

/-- The recognized settings consumed by the core: the attribute map and
the known-values table, both as insertion-ordered association lists
(modelling Python dict iteration order). -/
structure Settings where
  attributes : List (String × String)
  known_values : List (String × List PyVal)

/-- Python `dict.get(k)` / `k in dict` on an association list. -/
def dictGet {α : Type} (l : List (String × α)) (k : String) : Option α :=
  match l.find? (fun p => p.1 == k) with
  | some p => some p.2
  | Option.none => Option.none

/-- Python `dict[k] = v`: replace in place if the key exists, else append. -/
def dictSet {α : Type} : List (String × α) → String → α → List (String × α)
  | [], k, v => [(k, v)]
  | p :: t, k, v => if p.1 == k then (k, v) :: t else p :: dictSet t k v

/-- `QueryManager` state after construction: the field directory and the
two attribute maps built in `__init__`, plus the known-values table. -/
structure QueryManager where
  jira_fields : List JField
  known_values : List (String × List PyVal)
  attributes_to_fields : List (String × String)
  fields_to_attributes : List (String × String)

/-- Python `str.lower()` (character-wise lowering). -/
def pyLower (s : String) : String :=
  String.mk (s.data.map Char.toLower)

/-- `QueryManager.field_name_to_id`: first field-directory entry whose
name matches case-insensitively; `ConfigError` when none does. -/
def fieldNameToId (jiraFields : List JField) (name : String) :
    Except PyErr String :=
  match jiraFields.find? (fun f => pyLower f.name == pyLower name) with
  | some f => Except.ok f.id
  | Option.none => Except.error (PyErr.configError
      ("JIRA field with name `" ++ name ++
       "` does not exist (did you try to use the field id instead?)"))

/-- The loop of `QueryManager.__init__` over `settings['attributes']`:
resolve each attribute's field name and extend both maps; the first
`ConfigError` aborts construction. -/
def buildMaps (jiraFields : List JField) :
    List (String × String) → List (String × String) →
    List (String × String) →
    Except PyErr (List (String × String) × List (String × String))
  | [], a2f, f2a => Except.ok (a2f, f2a)
  | (name, field) :: rest, a2f, f2a =>
    match fieldNameToId jiraFields field with
    | Except.error e => Except.error e
    | Except.ok field_id =>
        buildMaps jiraFields rest (dictSet a2f name field_id)
          (dictSet f2a field_id name)

/-- `QueryManager.__init__`: build the bidirectional attribute maps from
the configured attributes and the field directory. -/
def mkQueryManager (jiraFields : List JField) (settings : Settings) :
    Except PyErr QueryManager :=
  match buildMaps jiraFields settings.attributes [] [] with
  | Except.error e => Except.error e
  | Except.ok (a2f, f2a) =>
      Except.ok { jira_fields := jiraFields,
                  known_values := settings.known_values,
                  attributes_to_fields := a2f,
                  fields_to_attributes := f2a }

/-- `getattr(field_value, 'value', field_value)`: unwrap a wrapped value. -/
def pyGetattrValue (v : PyVal) : PyVal :=
  match v with
  | PyVal.obj (some w) _ _ => w
  | _ => v

/-- `getattr(v, 'name', v)`: reduce an element to its display name. -/
def pyGetattrName (v : PyVal) : PyVal :=
  match v with
  | PyVal.obj _ (some n) _ => n
  | _ => v

/-- `isinstance(value, (int, float, bool, str, bytes))`. -/
def isPrimitive : PyVal → Bool
  | PyVal.bool _ => true
  | PyVal.int _ => true
  | PyVal.float _ => true
  | PyVal.str _ => true
  | PyVal.bytes _ => true
  | _ => false

/-- Python `str(value)`: `none` models `str` raising `TypeError` (only
possible for a generic object in this model; `str` of the other
constructors always succeeds).  The renderings of bytes and lists are
abbreviated: no embedded operation or claim inspects them. -/
def pyStr : PyVal → Option String
  | PyVal.none => some "None"
  | PyVal.bool b => some (cond b "True" "False")
  | PyVal.int n => some (toString n)
  | PyVal.float lit => some lit
  | PyVal.str s => some s
  | PyVal.bytes lit => some lit
  | PyVal.list vs => some ("[" ++ toString vs.length ++ " values]")
  | PyVal.obj _ _ strRepr => strRepr

/-- The final coercion step of `resolve_field_value`: keep a primitive
unchanged, otherwise try `str(value)` and keep the original value when
the conversion raises `TypeError`. -/
def coerce (value : PyVal) : PyVal :=
  if isPrimitive value then value
  else
    match pyStr value with
    | some s => PyVal.str s
    | Option.none => value

/-- `QueryManager.resolve_field_value`. -/
def resolveFieldValue (qm : QueryManager) (issue : Issue)
    (field_id : String) : Except PyErr PyVal :=
  match dictGet issue.fields field_id with
  | Option.none => Except.error (PyErr.attributeError field_id)
  | some field_value =>
    match field_value with
    | PyVal.none => Except.ok PyVal.none
    | _ =>
      let value := pyGetattrValue field_value
      let value :=
        match value with
        | PyVal.list [] => PyVal.none
        | PyVal.list (v :: rest) =>
            let values := (v :: rest).map pyGetattrName
            match dictGet qm.fields_to_attributes field_id with
            | Option.none => pyGetattrName v
            | some attribute_name =>
              match dictGet qm.known_values attribute_name with
              | Option.none => pyGetattrName v
              | some kvs =>
                match kvs.find? (fun kv => values.contains kv) with
                | some kv => kv
                | Option.none => PyVal.none
        | _ => value
      Except.ok (coerce value)

/-- `QueryManager.resolve_attribute_value`: `self.attributes_to_fields[attribute_name]`
raises `KeyError` on a missing key, then delegates to `resolve_field_value`. -/
def resolveAttributeValue (qm : QueryManager) (issue : Issue)
    (attribute_name : String) : Except PyErr PyVal :=
  match dictGet qm.attributes_to_fields attribute_name with
  | Option.none => Except.error (PyErr.keyError attribute_name)
  | some field_id => resolveFieldValue qm issue field_id

/-- Run a fallible producer over a list, collecting the outputs in order
and stopping at the first raised exception (the behaviour of a Python
`for` loop that yields one value per element). -/
def mapExcept {α β : Type} (f : α → Except PyErr β) :
    List α → Except PyErr (List β)
  | [] => Except.ok []
  | a :: l =>
    match f a with
    | Except.error e => Except.error e
    | Except.ok b =>
      match mapExcept f l with
      | Except.error e => Except.error e
      | Except.ok bs => Except.ok (b :: bs)

/-- The body of the first loop of `QueryManager.iter_changes` for one
tracked field: resolve the current value, override it with the
`fromString` of the first matching delta item when one exists anywhere in
the changelog (`next(filter(...))`, `StopIteration` caught), and emit the
synthesized initial snapshot dated at `issue.fields.created`. -/
def phase1Snapshot (qm : QueryManager) (issue : Issue) (field : String) :
    Except PyErr IssueSnapshot :=
  match fieldNameToId qm.jira_fields field with
  | Except.error e => Except.error e
  | Except.ok field_id =>
    match resolveFieldValue qm issue field_id with
    | Except.error e => Except.error e
    | Except.ok current =>
      let initial_value :=
        match (issue.changelog.flatMap History.items).find?
            (fun h => h.field == field) with
        | some item => item.fromString
        | Option.none => current
      Except.ok (mkIssueSnapshot field issue.key issue.created
        PyVal.none initial_value)

/-- The second loop of `QueryManager.iter_changes`: one snapshot per
delta item whose field is tracked, histories in order, items in order,
dated at the history's `created` timestamp. -/
def phase2Snapshots (issue : Issue) (fields : List String) :
    List IssueSnapshot :=
  issue.changelog.flatMap (fun change =>
    (change.items.filter (fun item => fields.contains item.field)).map
      (fun item => mkIssueSnapshot item.field issue.key change.created
        item.fromString item.toString))

/-- `QueryManager.iter_changes`, modelled as the list of all snapshots
the generator yields (first uncaught exception as `error`). -/
def iterChanges (qm : QueryManager) (issue : Issue)
    (fields : List String) : Except PyErr (List IssueSnapshot) :=
  match mapExcept (phase1Snapshot qm issue) fields with
  | Except.error e => Except.error e
  | Except.ok p1 => Except.ok (p1 ++ phase2Snapshots issue fields)

/-- Spec-side description of Phase 2's inputs: the changelog's delta
items paired with their history's timestamp, flattened in history order
then item order, restricted to the tracked fields. -/
def trackedDeltas (issue : Issue) (fields : List String) :
    List (PyDateTime × ChangeItem) :=
  (issue.changelog.flatMap
      (fun h => h.items.map (fun it => (h.created, it)))).filter
    (fun p => fields.contains p.2.field)

/-! ### Helper lemmas -/

mutual

theorem pyBeq_iff_eq : (a b : PyVal) → (pyBeq a b = true ↔ a = b)
  | PyVal.none, b => by cases b <;> simp [pyBeq]
  | PyVal.bool x, b => by cases b <;> simp [pyBeq]
  | PyVal.int x, b => by cases b <;> simp [pyBeq]
  | PyVal.float x, b => by cases b <;> simp [pyBeq]
  | PyVal.str x, b => by cases b <;> simp [pyBeq]
  | PyVal.bytes x, b => by cases b <;> simp [pyBeq]
  | PyVal.list as, b => by
      cases b with
      | list bs => simpa [pyBeq] using pyListBeq_iff_eq as bs
      | none => simp [pyBeq]
      | bool x => simp [pyBeq]
      | int x => simp [pyBeq]
      | float x => simp [pyBeq]
      | str x => simp [pyBeq]
      | bytes x => simp [pyBeq]
      | obj v n s => simp [pyBeq]
  | PyVal.obj v1 n1 s1, b => by
      cases b with
      | obj v2 n2 s2 =>
          simp [pyBeq, pyOptBeq_iff_eq v1 v2, pyOptBeq_iff_eq n1 n2,
            and_assoc]
      | none => simp [pyBeq]
      | bool x => simp [pyBeq]
      | int x => simp [pyBeq]
      | float x => simp [pyBeq]
      | str x => simp [pyBeq]
      | bytes x => simp [pyBeq]
      | list bs => simp [pyBeq]

theorem pyListBeq_iff_eq : (as bs : List PyVal) → (pyListBeq as bs = true ↔ as = bs)
  | [], [] => by simp [pyListBeq]
  | [], _ :: _ => by simp [pyListBeq]
  | _ :: _, [] => by simp [pyListBeq]
  | a :: as, b :: bs => by
      simp [pyListBeq, pyBeq_iff_eq a b, pyListBeq_iff_eq as bs]

theorem pyOptBeq_iff_eq : (x y : Option PyVal) → (pyOptBeq x y = true ↔ x = y)
  | Option.none, Option.none => by simp [pyOptBeq]
  | Option.none, some _ => by simp [pyOptBeq]
  | some _, Option.none => by simp [pyOptBeq]
  | some a, some b => by simp [pyOptBeq, pyBeq_iff_eq a b]

end

theorem mapExcept_ok_length {α β : Type} (f : α → Except PyErr β) :
    ∀ (l : List α) (out : List β),
      mapExcept f l = Except.ok out → out.length = l.length := by
  intro l
  induction l with
  | nil =>
      intro out h
      simp only [mapExcept] at h
      cases h
      rfl
  | cons a t ih =>
      intro out h
      simp only [mapExcept] at h
      cases hfa : f a with
      | error e => rw [hfa] at h; cases h
      | ok b =>
          rw [hfa] at h
          cases hmt : mapExcept f t with
          | error e => rw [hmt] at h; cases h
          | ok bs =>
              rw [hmt] at h
              cases h
              simp [ih bs hmt]

theorem mapExcept_ok_get {α β : Type} (f : α → Except PyErr β) :
    ∀ (l : List α) (out : List β), mapExcept f l = Except.ok out →
      ∀ (i : Nat) (a : α), l[i]? = some a →
        ∃ b, out[i]? = some b ∧ f a = Except.ok b := by
  intro l
  induction l with
  | nil => intro out h i a ha; simp at ha
  | cons x t ih =>
      intro out h i a ha
      simp only [mapExcept] at h
      cases hfa : f x with
      | error e => rw [hfa] at h; cases h
      | ok b =>
          rw [hfa] at h
          cases hmt : mapExcept f t with
          | error e => rw [hmt] at h; cases h
          | ok bs =>
              rw [hmt] at h
              cases h
              cases i with
              | zero =>
                  simp at ha
                  subst ha
                  exact ⟨b, by simp, hfa⟩
              | succ j =>
                  simp at ha
                  obtain ⟨c, hc, hfc⟩ := ih bs hmt j a ha
                  exact ⟨c, by simpa using hc, hfc⟩

theorem mapExcept_ok_of_all {α β : Type} (f : α → Except PyErr β) :
    ∀ (l : List α), (∀ a ∈ l, ∃ b, f a = Except.ok b) →
      ∃ out, mapExcept f l = Except.ok out := by
  intro l
  induction l with
  | nil => intro _; exact ⟨[], rfl⟩
  | cons x t ih =>
      intro h
      obtain ⟨b, hb⟩ := h x (by simp)
      obtain ⟨bs, hbs⟩ := ih (fun a ha => h a (by simp [ha]))
      exact ⟨b :: bs, by simp only [mapExcept, hb, hbs]⟩

theorem find?_eq_some_first {α : Type} (p : α → Bool) :
    ∀ (l : List α) (a : α), l.find? p = some a →
      ∃ i, l[i]? = some a ∧ p a = true ∧
        ∀ (j : Nat) (b : α), j < i → l[j]? = some b → p b = false := by
  intro l
  induction l with
  | nil => intro a h; simp at h
  | cons x t ih =>
      intro a h
      rw [List.find?_cons] at h
      cases hpx : p x with
      | true =>
          rw [hpx] at h
          cases h
          exact ⟨0, by simp, hpx, by intro j b hj; omega⟩
      | false =>
          rw [hpx] at h
          obtain ⟨i, hi, hpa, hfirst⟩ := ih a h
          refine ⟨i + 1, by simpa using hi, hpa, ?_⟩
          intro j b hj hb
          cases j with
          | zero =>
              simp at hb
              subst hb
              exact hpx
          | succ k =>
              simp at hb
              exact hfirst k b (by omega) hb

theorem dictGet_cons {α : Type} (p : String × α) (t : List (String × α))
    (k : String) :
    dictGet (p :: t) k = if p.1 == k then some p.2 else dictGet t k := by
  simp only [dictGet, List.find?_cons]
  cases hpk : (p.1 == k) <;> simp

theorem dictGet_dictSet_ne {α : Type} (k' k : String) (v : α) (hne : k' ≠ k) :
    ∀ (m : List (String × α)), dictGet (dictSet m k' v) k = dictGet m k := by
  intro m
  induction m with
  | nil =>
      simp [dictGet, dictSet, List.find?_cons, hne]
  | cons p t ih =>
      simp only [dictSet]
      by_cases hpk : p.1 = k'
      · rw [if_pos (by simp [hpk])]
        rw [dictGet_cons, dictGet_cons]
        simp [hne, hpk]
      · rw [if_neg (by simpa using hpk)]
        rw [dictGet_cons, dictGet_cons, ih]

theorem fieldNameToId_ok_mem (jf : List JField) (nm fid : String)
    (h : fieldNameToId jf nm = Except.ok fid) :
    ∃ f ∈ jf, pyLower f.name = pyLower nm ∧ fid = f.id := by
  simp only [fieldNameToId] at h
  cases hf : jf.find? (fun f => pyLower f.name == pyLower nm) with
  | none => rw [hf] at h; cases h
  | some f =>
      rw [hf] at h
      cases h
      exact ⟨f, List.mem_of_find?_eq_some hf, by simpa using List.find?_some hf,
        rfl⟩

theorem fieldNameToId_eq_error (jf : List JField) (nm : String)
    (h : ∀ f ∈ jf, pyLower f.name ≠ pyLower nm) :
    fieldNameToId jf nm = Except.error (PyErr.configError
      ("JIRA field with name `" ++ nm ++
       "` does not exist (did you try to use the field id instead?)")) := by
  simp only [fieldNameToId]
  rw [List.find?_eq_none.mpr (fun f hf => by simp [h f hf])]

theorem fieldNameToId_error_shape (jf : List JField) (nm : String) (e : PyErr)
    (h : fieldNameToId jf nm = Except.error e) :
    ∃ msg, e = PyErr.configError msg := by
  simp only [fieldNameToId] at h
  cases hf : jf.find? (fun f => pyLower f.name == pyLower nm) with
  | some f => rw [hf] at h; cases h
  | none => rw [hf] at h; cases h; exact ⟨_, rfl⟩

theorem buildMaps_ok_a2f_none (jf : List JField) :
    ∀ (attrs a2f f2a : List (String × String))
      (res : List (String × String) × List (String × String)) (k : String),
      buildMaps jf attrs a2f f2a = Except.ok res →
      (∀ p ∈ attrs, p.1 ≠ k) → dictGet a2f k = Option.none →
      dictGet res.1 k = Option.none := by
  intro attrs
  induction attrs with
  | nil =>
      intro a2f f2a res k h _ hk
      cases h
      exact hk
  | cons p rest ih =>
      obtain ⟨n, fl⟩ := p
      intro a2f f2a res k h hne hk
      simp only [buildMaps] at h
      cases hfid : fieldNameToId jf fl with
      | error e => rw [hfid] at h; cases h
      | ok fid =>
          rw [hfid] at h
          refine ih _ _ _ k h (fun q hq => hne q (by simp [hq])) ?_
          rw [dictGet_dictSet_ne n k fid (hne (n, fl) (by simp))]
          exact hk

theorem buildMaps_error_of_unmatched (jf : List JField) :
    ∀ (attrs a2f f2a : List (String × String)) (q : String × String),
      q ∈ attrs → (∀ f ∈ jf, pyLower f.name ≠ pyLower q.2) →
      ∃ msg, buildMaps jf attrs a2f f2a =
        Except.error (PyErr.configError msg) := by
  intro attrs
  induction attrs with
  | nil => intro _ _ q hq _; simp at hq
  | cons p rest ih =>
      obtain ⟨n, fl⟩ := p
      intro a2f f2a q hq hno
      simp only [buildMaps]
      cases hfid : fieldNameToId jf fl with
      | error e =>
          obtain ⟨msg, rfl⟩ := fieldNameToId_error_shape jf fl e hfid
          exact ⟨msg, rfl⟩
      | ok fid =>
          have hqrest : q ∈ rest := by
            rcases List.mem_cons.mp hq with heq | hrest
            · exfalso
              obtain ⟨f, hfmem, hfeq, _⟩ := fieldNameToId_ok_mem jf fl fid hfid
              subst heq
              exact hno f hfmem hfeq
            · exact hrest
          exact ih _ _ q hqrest hno

theorem resolveFieldValue_isOk (qm : QueryManager) (issue : Issue)
    (field_id : String) (fv : PyVal)
    (h : dictGet issue.fields field_id = some fv) :
    ∃ v, resolveFieldValue qm issue field_id = Except.ok v := by
  simp only [resolveFieldValue, h]
  cases fv <;> exact ⟨_, rfl⟩

theorem phase1Snapshot_ok (qm : QueryManager) (issue : Issue) (field : String)
    (s : IssueSnapshot) (h : phase1Snapshot qm issue field = Except.ok s) :
    s.change = field ∧ s.key = issue.key ∧
    s.date = astimezoneUtc issue.created ∧ s.from_string = PyVal.none ∧
    ∃ fid current, fieldNameToId qm.jira_fields field = Except.ok fid ∧
      resolveFieldValue qm issue fid = Except.ok current ∧
      s.to_string =
        (match (issue.changelog.flatMap History.items).find?
            (fun it => it.field == field) with
         | some item => item.fromString
         | Option.none => current) := by
  cases hfid : fieldNameToId qm.jira_fields field with
  | error e => simp only [phase1Snapshot, hfid] at h; simp at h
  | ok fid =>
      simp only [phase1Snapshot, hfid] at h
      cases hres : resolveFieldValue qm issue fid with
      | error e => simp only [hres] at h; simp at h
      | ok current =>
          simp only [hres] at h
          cases h
          exact ⟨rfl, rfl, rfl, rfl, fid, current, rfl, hres, rfl⟩

theorem iterChanges_ok_parts (qm : QueryManager) (issue : Issue)
    (fields : List String) (out : List IssueSnapshot)
    (h : iterChanges qm issue fields = Except.ok out) :
    ∃ p1, mapExcept (phase1Snapshot qm issue) fields = Except.ok p1 ∧
      out = p1 ++ phase2Snapshots issue fields := by
  simp only [iterChanges] at h
  cases hm : mapExcept (phase1Snapshot qm issue) fields with
  | error e => rw [hm] at h; cases h
  | ok p1 => rw [hm] at h; cases h; exact ⟨p1, rfl, rfl⟩

theorem phase2_eq_trackedDeltas (issue : Issue) (fields : List String) :
    phase2Snapshots issue fields =
      (trackedDeltas issue fields).map
        (fun p => mkIssueSnapshot p.2.field issue.key p.1 p.2.fromString
          p.2.toString) := by
  simp only [phase2Snapshots, trackedDeltas]
  induction issue.changelog with
  | nil => simp
  | cons h t ih =>
      simp only [List.flatMap_cons, List.filter_append, List.map_append, ih]
      congr 1
      induction h.items with
      | nil => simp
      | cons it rest ih2 =>
          simp only [List.map_cons, List.filter_cons]
          cases hc : fields.contains it.field
          · simpa [hc] using ih2
          · simpa [hc] using ih2

theorem resolveFieldValue_ok_shape (qm : QueryManager) (issue : Issue)
    (field_id : String) (w : PyVal)
    (h : resolveFieldValue qm issue field_id = Except.ok w) :
    w = PyVal.none ∨ ∃ u, w = coerce u := by
  cases hd : dictGet issue.fields field_id with
  | none => simp only [resolveFieldValue, hd] at h; simp at h
  | some fv =>
      simp only [resolveFieldValue, hd] at h
      cases fv
      all_goals first
        | (cases h; exact Or.inl rfl)
        | (cases h; exact Or.inr ⟨_, rfl⟩)

theorem phase1Snapshot_isOk (qm : QueryManager) (issue : Issue) (field : String)
    (fid : String) (v : PyVal)
    (hfid : fieldNameToId qm.jira_fields field = Except.ok fid)
    (hres : resolveFieldValue qm issue fid = Except.ok v) :
    ∃ s, phase1Snapshot qm issue field = Except.ok s := by
  simp only [phase1Snapshot, hfid, hres]
  exact ⟨_, rfl⟩

theorem pairwise_of_rel_all {α : Type} (R : α → α → Prop) (l : List α)
    (h : ∀ a ∈ l, ∀ b ∈ l, R a b) : l.Pairwise R := by
  induction l with
  | nil => exact List.Pairwise.nil
  | cons x t ih =>
      constructor
      · intro b hb
        exact h x (by simp) b (by simp [hb])
      · exact ih (fun a ha b hb => h a (by simp [ha]) b (by simp [hb]))

theorem mem_phase2_block_instant (key : String) (fields : List String)
    (h : History) (x : IssueSnapshot)
    (hx : x ∈ (h.items.filter (fun item => fields.contains item.field)).map
      (fun item => mkIssueSnapshot item.field key h.created item.fromString
        item.toString)) :
    x.date.instant = h.created.instant := by
  obtain ⟨it, _, rfl⟩ := List.mem_map.mp hx
  rfl

/-! ### Concrete fixtures used by witnesses and counterexamples -/

/-- A field directory with a single entry named `Status`. -/
def jfW : List JField := [⟨"customfield_001", "Status"⟩]

/-- Settings tracking one attribute mapped to `Status`. -/
def settingsW : Settings := ⟨[("status", "Status")], []⟩

/-- The QueryManager that `mkQueryManager jfW settingsW` constructs. -/
def qmW : QueryManager :=
  ⟨jfW, [], [("status", "customfield_001")], [("customfield_001", "status")]⟩

/-- An issue with a current `Status` value and two changelog histories. -/
def issueW : Issue :=
  { key := "ISSUE-1",
    created := ⟨100, 0⟩,
    fields := [("customfield_001", PyVal.str "Done")],
    changelog :=
      [⟨⟨200, 0⟩, [⟨"Status", PyVal.str "To Do", PyVal.str "In Progress"⟩]⟩,
       ⟨⟨300, 0⟩, [⟨"Status", PyVal.str "In Progress", PyVal.str "Done"⟩]⟩] }

/-- The snapshots `iter_changes` yields on `issueW` for `["Status"]`. -/
def outW : List IssueSnapshot :=
  [mkIssueSnapshot "Status" "ISSUE-1" ⟨100, 0⟩ PyVal.none (PyVal.str "To Do"),
   mkIssueSnapshot "Status" "ISSUE-1" ⟨200, 0⟩ (PyVal.str "To Do")
     (PyVal.str "In Progress"),
   mkIssueSnapshot "Status" "ISSUE-1" ⟨300, 0⟩ (PyVal.str "In Progress")
     (PyVal.str "Done")]

/-- An issue whose `fields` object has no attributes at all. -/
def issueBare : Issue := { key := "I", created := ⟨0, 0⟩, fields := [], changelog := [] }

/-- An issue whose tracked field holds a null value. -/
def issueNullField : Issue :=
  { key := "I", created := ⟨0, 0⟩,
    fields := [("customfield_001", PyVal.none)], changelog := [] }

/-- An issue whose tracked field holds an empty list. -/
def issueEmptyList : Issue :=
  { key := "I", created := ⟨0, 0⟩,
    fields := [("customfield_001", PyVal.list [])], changelog := [] }

/-- A QueryManager with a known-values table for attribute `type`. -/
def qmKV : QueryManager :=
  ⟨[⟨"cf2", "Type"⟩], [("type", [PyVal.str "Feature", PyVal.str "Bug"])],
   [("type", "cf2")], [("cf2", "type")]⟩

/-- An issue whose `type` field value list matches no configured known value. -/
def issueNoMatch : Issue :=
  { key := "I", created := ⟨0, 0⟩,
    fields := [("cf2", PyVal.list [PyVal.str "Task"])], changelog := [] }

/-! ### Claim theorems -/

/-- C1: for every issue and tracked field `f` at position `i` of the
fields list, the Phase-1 snapshot emitted for `f` has `change = f`,
`key = issue.key`, `date = issue.created` normalized to UTC and
`from_string = None`; its `to_string` is the `fromString` of the first
delta item with field `f` in the oldest-first scan of all changelog
items, and when no item anywhere matches it is the result of resolving
the field's current value via `resolve_field_value`. -/
theorem iter_changes_initial_snapshot (qm : QueryManager) (issue : Issue)
    (fields : List String) (out : List IssueSnapshot) (i : Nat) (f : String)
    (hok : iterChanges qm issue fields = Except.ok out)
    (hf : fields[i]? = some f) :
    ∃ s, out[i]? = some s ∧ s.change = f ∧ s.key = issue.key ∧
      s.date = astimezoneUtc issue.created ∧ s.from_string = PyVal.none ∧
      ((∃ (j : Nat) (it : ChangeItem),
          (issue.changelog.flatMap History.items)[j]? = some it ∧
          it.field = f ∧ s.to_string = it.fromString ∧
          ∀ (k : Nat) (it' : ChangeItem), k < j →
            (issue.changelog.flatMap History.items)[k]? = some it' →
            it'.field ≠ f) ∨
       ((∀ it ∈ issue.changelog.flatMap History.items, it.field ≠ f) ∧
        ∃ fid, fieldNameToId qm.jira_fields f = Except.ok fid ∧
          resolveFieldValue qm issue fid = Except.ok s.to_string)) := by
  obtain ⟨p1, hp1, rfl⟩ := iterChanges_ok_parts qm issue fields out hok
  obtain ⟨s, hs, hfs⟩ := mapExcept_ok_get _ fields p1 hp1 i f hf
  obtain ⟨hilt, -⟩ := List.getElem?_eq_some.mp hs
  refine ⟨s, ?_, ?_⟩
  · rw [List.getElem?_append_left hilt]
    exact hs
  obtain ⟨hc, hk, hd, hfrom, fid, current, hfid, hres, hto⟩ :=
    phase1Snapshot_ok qm issue f s hfs
  refine ⟨hc, hk, hd, hfrom, ?_⟩
  cases hfind : (issue.changelog.flatMap History.items).find?
      (fun it => it.field == f) with
  | some item =>
      simp only [hfind] at hto
      left
      obtain ⟨j, hj, hpa, hfirst⟩ := find?_eq_some_first _ _ item hfind
      refine ⟨j, item, hj, by simpa using hpa, hto, ?_⟩
      intro k it' hkj hget
      simpa using hfirst k it' hkj hget
  | none =>
      simp only [hfind] at hto
      right
      refine ⟨?_, fid, hfid, ?_⟩
      · intro it hit
        simpa using List.find?_eq_none.mp hfind it hit
      · rw [hto]
        exact hres

/-- Witness for C1 at a concrete issue: the first emitted snapshot for
`Status` exists and describes the `Status` field. -/
theorem iter_changes_initial_snapshot_witness :
    ∃ s, outW[0]? = some s ∧ s.change = "Status" ∧ s.key = issueW.key ∧
      s.from_string = PyVal.none := by
  obtain ⟨s, h1, h2, h3, -, h5, -⟩ :=
    iter_changes_initial_snapshot qmW issueW ["Status"] outW 0 "Status" rfl rfl
  exact ⟨s, h1, h2, h3, h5⟩

/-- C2: on success, `iter_changes` yields exactly one initial snapshot
per tracked field, in field order (each with `from_string = None`, the
field name as `change`, the issue's key and its created date as UTC),
followed by exactly one snapshot per changelog delta item whose field is
tracked, in history order then item order, with `from_string`/`to_string`
verbatim from the delta and the date equal to its history's timestamp as
UTC. -/
theorem iter_changes_shape (qm : QueryManager) (issue : Issue)
    (fields : List String) (out : List IssueSnapshot)
    (hok : iterChanges qm issue fields = Except.ok out) :
    out.length = fields.length + (trackedDeltas issue fields).length ∧
    (∀ (i : Nat) (s : IssueSnapshot), i < fields.length → out[i]? = some s →
      fields[i]? = some s.change ∧ s.key = issue.key ∧
      s.date = astimezoneUtc issue.created ∧ s.from_string = PyVal.none) ∧
    (∀ (i : Nat) (p : PyDateTime × ChangeItem),
      (trackedDeltas issue fields)[i]? = some p →
      ∃ s, out[fields.length + i]? = some s ∧ s.change = p.2.field ∧
        s.key = issue.key ∧ s.date = astimezoneUtc p.1 ∧
        s.from_string = p.2.fromString ∧ s.to_string = p.2.toString) := by
  obtain ⟨p1, hp1, rfl⟩ := iterChanges_ok_parts qm issue fields out hok
  have hlen := mapExcept_ok_length _ fields p1 hp1
  have hp2 := phase2_eq_trackedDeltas issue fields
  refine ⟨?_, ?_, ?_⟩
  · rw [List.length_append, hlen, hp2, List.length_map]
  · intro i s hi hout
    have hi1 : i < p1.length := by rw [hlen]; exact hi
    rw [List.getElem?_append_left hi1] at hout
    obtain ⟨f, hfget⟩ : ∃ f, fields[i]? = some f :=
      ⟨fields[i], List.getElem?_eq_some.mpr ⟨hi, rfl⟩⟩
    obtain ⟨b, hb, hfb⟩ := mapExcept_ok_get _ fields p1 hp1 i f hfget
    have hsb : s = b := by
      rw [hout] at hb
      exact (Option.some.injEq _ _).mp hb.symm ▸ rfl
    subst hsb
    obtain ⟨hc, hk, hd, hfrom, -⟩ := phase1Snapshot_ok qm issue f s hfb
    exact ⟨by rw [hfget, hc], hk, hd, hfrom⟩
  · intro i p hp
    refine ⟨mkIssueSnapshot p.2.field issue.key p.1 p.2.fromString
      p.2.toString, ?_, rfl, rfl, rfl, rfl, rfl⟩
    rw [List.getElem?_append_right (by omega : p1.length ≤ fields.length + i)]
    rw [hlen]
    have : fields.length + i - fields.length = i := by omega
    rw [this, hp2, List.getElem?_map, hp]
    rfl

/-- Witness for C2 at a concrete issue: three snapshots in total, and the
snapshot after the initial block mirrors the first tracked delta. -/
theorem iter_changes_shape_witness :
    outW.length = 1 + (trackedDeltas issueW ["Status"]).length ∧
    (∃ s, outW[1 + 0]? = some s ∧
      s.from_string = PyVal.str "To Do" ∧ s.to_string = PyVal.str "In Progress") := by
  obtain ⟨h1, -, h3⟩ := iter_changes_shape qmW issueW ["Status"] outW rfl
  refine ⟨h1, ?_⟩
  obtain ⟨s, hs, -, -, -, h5, h6⟩ :=
    h3 0 (⟨200, 0⟩, ⟨"Status", PyVal.str "To Do", PyVal.str "In Progress"⟩) rfl
  exact ⟨s, hs, by rw [h5], by rw [h6]⟩

/-- C3 counterexample: tracking a field name absent from the field
directory makes `iter_changes` raise `ConfigError` (via
`field_name_to_id`), so reconstruction is not error-free for every
tracked-field list. -/
theorem iter_changes_unknown_name_raises :
    iterChanges qmW issueW ["Velocity"] = Except.error (PyErr.configError
      "JIRA field with name `Velocity` does not exist (did you try to use the field id instead?)") :=
  rfl

/-- C3 amended: provided every tracked field name matches the field
directory case-insensitively and the issue's fields object carries a
(possibly null) value for the resolved field id, reconstruction raises
no error; and a tracked field with no matching delta item anywhere in
the changelog degrades to the current-value fallback. -/
theorem iter_changes_no_error (qm : QueryManager) (issue : Issue)
    (fields : List String)
    (h : ∀ f ∈ fields, ∃ fid, fieldNameToId qm.jira_fields f = Except.ok fid ∧
      ∃ fv, dictGet issue.fields fid = some fv) :
    ∃ out, iterChanges qm issue fields = Except.ok out ∧
      ∀ (i : Nat) (f : String), fields[i]? = some f →
        (∀ it ∈ issue.changelog.flatMap History.items, it.field ≠ f) →
        ∃ s fid, out[i]? = some s ∧
          fieldNameToId qm.jira_fields f = Except.ok fid ∧
          resolveFieldValue qm issue fid = Except.ok s.to_string := by
  have hall : ∀ f ∈ fields, ∃ s, phase1Snapshot qm issue f = Except.ok s := by
    intro f hf
    obtain ⟨fid, hfid, fv, hfv⟩ := h f hf
    obtain ⟨v, hv⟩ := resolveFieldValue_isOk qm issue fid fv hfv
    exact phase1Snapshot_isOk qm issue f fid v hfid hv
  obtain ⟨p1, hp1⟩ := mapExcept_ok_of_all _ fields hall
  refine ⟨p1 ++ phase2Snapshots issue fields,
    by simp only [iterChanges, hp1], ?_⟩
  intro i f hfget hnone
  obtain ⟨s, hs, hfs⟩ := mapExcept_ok_get _ fields p1 hp1 i f hfget
  obtain ⟨hilt, -⟩ := List.getElem?_eq_some.mp hs
  obtain ⟨-, -, -, -, fid, current, hfid, hres, hto⟩ :=
    phase1Snapshot_ok qm issue f s hfs
  have hfind : (issue.changelog.flatMap History.items).find?
      (fun it => it.field == f) = Option.none :=
    List.find?_eq_none.mpr (fun it hit => by simpa using hnone it hit)
  simp only [hfind] at hto
  refine ⟨s, fid, ?_, hfid, ?_⟩
  · rw [List.getElem?_append_left hilt]
    exact hs
  · rw [hto]
    exact hres

/-- Witness for C3 (amended): on a resolvable tracked field the
reconstruction succeeds, and the no-delta fallback equation holds at
index 0. -/
theorem iter_changes_no_error_witness :
    ∃ out, iterChanges qmW issueW ["Status"] = Except.ok out := by
  obtain ⟨out, hout, -⟩ := iter_changes_no_error qmW issueW ["Status"]
    (by
      intro f hf
      simp only [List.mem_singleton] at hf
      subst hf
      exact ⟨"customfield_001", rfl, PyVal.str "Done", rfl⟩)
  exact ⟨out, hout⟩

/-- C4 counterexample: when the issue's fields object holds no attribute
for the field id, `resolve_field_value` raises `AttributeError`
(two-argument `getattr`), instead of returning null without raising. -/
theorem resolve_field_value_absent_raises :
    resolveFieldValue qmW issueBare "customfield_001" =
      Except.error (PyErr.attributeError "customfield_001") :=
  rfl

/-- C4 amended: `resolve_field_value` returns null, without raising, when
the issue's raw value for the field id is null; when the fields object
holds no attribute for the field id at all, it raises `AttributeError`. -/
theorem resolve_field_value_null_or_absent (qm : QueryManager)
    (issue : Issue) (field_id : String) :
    (dictGet issue.fields field_id = some PyVal.none →
      resolveFieldValue qm issue field_id = Except.ok PyVal.none) ∧
    (dictGet issue.fields field_id = Option.none →
      resolveFieldValue qm issue field_id =
        Except.error (PyErr.attributeError field_id)) := by
  constructor
  · intro h
    simp only [resolveFieldValue, h]
  · intro h
    simp only [resolveFieldValue, h]

/-- Witness for C4 (amended) at a concrete issue holding a null value. -/
theorem resolve_field_value_null_or_absent_witness :
    resolveFieldValue qmW issueNullField "customfield_001" =
      Except.ok PyVal.none :=
  (resolve_field_value_null_or_absent qmW issueNullField "customfield_001").1 rfl

/-- C5 (code bug): evaluating `resolve_field_value` on an empty
list-valued field, and on a list-valued field matching no configured
known value, returns the string `"None"` rather than null: the trailing
coercion step applies `str` to the internal `None` sentinel. -/
theorem resolve_field_value_stringifies_none :
    resolveFieldValue qmW issueEmptyList "customfield_001" =
      Except.ok (PyVal.str "None") ∧
    resolveFieldValue qmKV issueNoMatch "cf2" =
      Except.ok (PyVal.str "None") :=
  ⟨rfl, rfl⟩

/-- C6: the final coercion of `resolve_field_value` keeps a value that is
already a bool / int / float / str / bytes unchanged; otherwise it
attempts a string conversion, and when that conversion raises
`TypeError` it returns the original non-primitive value unchanged rather
than raising; and every successful `resolve_field_value` result is
either the early-returned null or the coercion of the selected value. -/
theorem resolve_field_value_coercion (v : PyVal) :
    (isPrimitive v = true → coerce v = v) ∧
    (isPrimitive v = false → ∀ s, pyStr v = some s → coerce v = PyVal.str s) ∧
    (isPrimitive v = false → pyStr v = Option.none → coerce v = v) ∧
    (∀ (qm : QueryManager) (issue : Issue) (field_id : String),
      resolveFieldValue qm issue field_id = Except.ok v →
      v = PyVal.none ∨ ∃ u, v = coerce u) := by
  refine ⟨?_, ?_, ?_, ?_⟩
  · intro h
    simp [coerce, h]
  · intro h s hs
    simp [coerce, h, hs]
  · intro h hs
    simp [coerce, h, hs]
  · intro qm issue field_id h
    exact resolveFieldValue_ok_shape qm issue field_id v h

/-- Witness for C6: a generic object whose `str()` raises `TypeError` is
passed through the coercion unchanged. -/
theorem resolve_field_value_coercion_witness :
    coerce (PyVal.obj Option.none Option.none Option.none) =
      PyVal.obj Option.none Option.none Option.none :=
  (resolve_field_value_coercion
    (PyVal.obj Option.none Option.none Option.none)).2.2.1 rfl rfl

/-- C7: `field_name_to_id` returns the id of a field-directory entry
whose name matches case-insensitively; it fails with `ConfigError` when
no entry matches; and when any configured attribute's field name has no
matching directory entry, `QueryManager` construction fails with that
error and no attribute map is produced. -/
theorem field_name_to_id_spec (jf : List JField) (nm : String)
    (settings : Settings) :
    (∀ fid, fieldNameToId jf nm = Except.ok fid →
      ∃ f ∈ jf, pyLower f.name = pyLower nm ∧ fid = f.id) ∧
    ((∀ f ∈ jf, pyLower f.name ≠ pyLower nm) →
      ∃ msg, fieldNameToId jf nm = Except.error (PyErr.configError msg)) ∧
    (∀ q ∈ settings.attributes, (∀ f ∈ jf, pyLower f.name ≠ pyLower q.2) →
      ∃ msg, mkQueryManager jf settings =
        Except.error (PyErr.configError msg)) := by
  refine ⟨?_, ?_, ?_⟩
  · intro fid h
    exact fieldNameToId_ok_mem jf nm fid h
  · intro h
    exact ⟨_, fieldNameToId_eq_error jf nm h⟩
  · intro q hq hno
    obtain ⟨msg, hmsg⟩ :=
      buildMaps_error_of_unmatched jf settings.attributes [] [] q hq hno
    exact ⟨msg, by simp only [mkQueryManager, hmsg]⟩

/-- Witness for C7: `STATUS` resolves case-insensitively against the
directory entry named `Status`, and construction with an unmatched
attribute name fails. -/
theorem field_name_to_id_spec_witness :
    (∃ f ∈ jfW, pyLower f.name = pyLower "STATUS" ∧ "customfield_001" = f.id) ∧
    (∃ msg, mkQueryManager jfW ⟨[("sp", "Story Points")], []⟩ =
      Except.error (PyErr.configError msg)) := by
  constructor
  · exact (field_name_to_id_spec jfW "STATUS" ⟨[("sp", "Story Points")], []⟩).1
      "customfield_001" rfl
  · exact (field_name_to_id_spec jfW "STATUS" ⟨[("sp", "Story Points")], []⟩).2.2
      ("sp", "Story Points") (by simp) (by decide)

/-- C8: two snapshots compare equal exactly when all five fields are
equal, the dates being compared by the textual form of their normalized
(UTC) representation; in particular two snapshots constructed from
timestamps denoting the same instant in different timezones compare
equal. -/
theorem snapshot_eq_spec (s other : IssueSnapshot) :
    (snapshotEq s other = true ↔
      (s.change = other.change ∧ s.key = other.key ∧
       isoformat s.date = isoformat other.date ∧
       s.from_string = other.from_string ∧ s.to_string = other.to_string)) ∧
    (∀ d1 d2 : PyDateTime, d1.instant = d2.instant →
      snapshotEq (mkIssueSnapshot s.change s.key d1 s.from_string s.to_string)
        (mkIssueSnapshot s.change s.key d2 s.from_string s.to_string) =
        true) := by
  constructor
  · simp [snapshotEq, Bool.and_eq_true, pyBeq_iff_eq, and_assoc]
  · intro d1 d2 h
    simp [snapshotEq, mkIssueSnapshot, astimezoneUtc, h, pyBeq_iff_eq]

/-- Witness for C8: the same snapshot built from a UTC+30min timestamp
and from a UTC-60min timestamp of the same instant compares equal. -/
theorem snapshot_eq_spec_witness :
    snapshotEq
      (mkIssueSnapshot "status" "K" ⟨5, 30⟩ PyVal.none (PyVal.str "x"))
      (mkIssueSnapshot "status" "K" ⟨5, -60⟩ PyVal.none (PyVal.str "x")) =
      true :=
  (snapshot_eq_spec
    (mkIssueSnapshot "status" "K" ⟨5, 30⟩ PyVal.none (PyVal.str "x"))
    (mkIssueSnapshot "status" "K" ⟨5, 30⟩ PyVal.none (PyVal.str "x"))).2
    ⟨5, 30⟩ ⟨5, -60⟩ rfl

/-- C9: when the changelog histories come with non-decreasing timestamps,
the historical (Phase-2) snapshots — the part of the output after the
`fields.length` initial snapshots — have non-decreasing dates in
emission order. -/
theorem historical_snapshots_monotone (qm : QueryManager) (issue : Issue)
    (fields : List String) (out : List IssueSnapshot)
    (hok : iterChanges qm issue fields = Except.ok out)
    (hmono : issue.changelog.Pairwise
      (fun h1 h2 => h1.created.instant ≤ h2.created.instant)) :
    (out.drop fields.length).Pairwise
      (fun s1 s2 => s1.date.instant ≤ s2.date.instant) := by
  obtain ⟨p1, hp1, rfl⟩ := iterChanges_ok_parts qm issue fields out hok
  have hlen := mapExcept_ok_length _ fields p1 hp1
  rw [show fields.length = p1.length from hlen.symm, List.drop_left]
  simp only [phase2Snapshots]
  rw [List.pairwise_flatMap]
  constructor
  · intro h hmem
    apply pairwise_of_rel_all
    intro a ha b hb
    rw [mem_phase2_block_instant issue.key fields h a ha,
      mem_phase2_block_instant issue.key fields h b hb]
  · refine List.Pairwise.imp_of_mem ?_ hmono
    intro h1 h2 hm1 hm2 hle x hx y hy
    rw [mem_phase2_block_instant issue.key fields h1 x hx,
      mem_phase2_block_instant issue.key fields h2 y hy]
    exact hle

/-- Witness for C9 at a concrete issue with two ordered histories. -/
theorem historical_snapshots_monotone_witness :
    (outW.drop 1).Pairwise (fun s1 s2 => s1.date.instant ≤ s2.date.instant) :=
  historical_snapshots_monotone qmW issueW ["Status"] outW rfl (by decide)

/-- C10: for a constructed `QueryManager`, resolving an attribute name
that is not among the configured attributes raises `KeyError`
(`self.attributes_to_fields[attribute_name]`), rather than degrading to
null: the lenient null fallback applies only to field values. -/
theorem resolve_attribute_value_keyerror (jf : List JField)
    (settings : Settings) (qm : QueryManager) (issue : Issue)
    (attribute_name : String)
    (hqm : mkQueryManager jf settings = Except.ok qm)
    (hname : ∀ p ∈ settings.attributes, p.1 ≠ attribute_name) :
    resolveAttributeValue qm issue attribute_name =
      Except.error (PyErr.keyError attribute_name) := by
  cases hb : buildMaps jf settings.attributes [] [] with
  | error e =>
      simp only [mkQueryManager, hb] at hqm
      simp at hqm
  | ok res =>
      obtain ⟨a2f, f2a⟩ := res
      simp only [mkQueryManager, hb] at hqm
      cases hqm
      have h0 : dictGet a2f attribute_name = Option.none :=
        buildMaps_ok_a2f_none jf settings.attributes [] [] (a2f, f2a)
          attribute_name hb hname rfl
      simp only [resolveAttributeValue, h0]

/-- Witness for C10: resolving the unconfigured attribute name `ghost`
on the constructed manager raises `KeyError`. -/
theorem resolve_attribute_value_keyerror_witness :
    resolveAttributeValue qmW issueW "ghost" =
      Except.error (PyErr.keyError "ghost") :=
  resolve_attribute_value_keyerror jfW settingsW qmW issueW "ghost" rfl
    (by decide)
